import Mathlib

/-!
Verification development for the Customer-Bot backend.

The Python sources under `backend/app` are shallowly embedded here:

* text (`str`) is modelled as `List Char`, so that Python's
  character-counting `len` coincides with `List.length`;
* similarity scores (Python floats in `[0, 1]`) are modelled as `Rat`;
* wall-clock timestamps (`datetime.utcnow()`) are modelled as `Nat`
  (seconds), and `timedelta(hours=24)` as the constant `sessionTimeout`;
* the SQLAlchemy-backed store of `session_manager.py` is modelled as an
  explicit `Store` value threaded through each operation;
* calls to the generative model (`model.generate_content(...).text`) are
  modelled by an oracle structure `LLM`: one field per call site, each a
  function of the parameters that the corresponding prompt template is
  formatted with.  Quantifying a theorem over the oracle expresses that a
  code path performs no generative call.
-/

/-- Python `str`, modelled as its list of characters. -/
abbrev Str := List Char

/-- ASCII lowering, modelling Python `str.lower` on the ASCII inputs the
pipeline compares against. -/
def pyLower (s : Str) : Str := s.map Char.toLower

/-- ASCII uppering, modelling Python `str.upper`. -/
def pyUpper (s : Str) : Str := s.map Char.toUpper

/-- Characters Python `str.strip()` removes (`str.isspace` on ASCII). -/
def isSpaceChar (c : Char) : Bool :=
  c = ' ' || c = '\t' || c = '\n' || c = '\r' || c = Char.ofNat 11 || c = Char.ofNat 12

/-- Python `s.strip()`: drop whitespace from both ends. -/
def pyStrip (s : Str) : Str :=
  ((s.dropWhile isSpaceChar).reverse.dropWhile isSpaceChar).reverse

/-- Python `pat in s` (substring containment). -/
def containsSub (pat : Str) : Str → Bool
  | [] => pat.isEmpty
  | c :: rest => List.isPrefixOf pat (c :: rest) || containsSub pat rest

/-- Python `s.split(pat, 1)[1]` — the text after the first occurrence of
`pat` — returning `none` when `pat` does not occur (`pat` nonempty). -/
def afterFirst (pat : Str) : Str → Option Str
  | [] => if List.isPrefixOf pat ([] : Str) then some [] else none
  | c :: rest =>
      if List.isPrefixOf pat (c :: rest) then some ((c :: rest).drop pat.length)
      else afterFirst pat rest

/-- Python `s.split("\n")` (keeps empty pieces, `"" ↦ [""]`). -/
def splitNL : Str → List Str
  | [] => [[]]
  | c :: rest =>
      match splitNL rest with
      | [] => [[c]]
      | l :: ls => if c = '\n' then [] :: l :: ls else (c :: l) :: ls

/-- Python `sep.join(parts)`. -/
def joinWith (sep : Str) : List Str → Str
  | [] => []
  | [x] => x
  | x :: y :: xs => x ++ sep ++ joinWith sep (y :: xs)

/-- Python `s.split("\n")[0]` applied to an already-stripped string:
the text up to the first newline. -/
def firstLine (s : Str) : Str := s.takeWhile (fun c => c ≠ '\n')

/-- Total character count of a list of text pieces. -/
def sumLen (l : List Str) : Nat := (l.map List.length).sum

/-- Python `xs[-n:]`. -/
def lastN (n : Nat) (xs : List α) : List α := xs.drop (xs.length - n)

/-! ## Configuration (`config.py`)

The RAG parameters of `Settings`: retrieval fan-out `top_k`, escalation
threshold `score_threshold`, and context budget `max_context_chars`. -/

structure Config where
  topK : Nat
  scoreThreshold : Rat
  maxContextChars : Nat
deriving DecidableEq, Repr

/-- The defaults declared in `config.py`:
`TOP_K=3`, `SCORE_THRESHOLD=0.75`, `MAX_CONTEXT_CHARS=1200`. -/
def defaultConfig : Config := ⟨3, mkRat 3 4, 1200⟩

/-- The high-confidence direct-extraction threshold hard-coded in
`RAG.answer` (`score >= 0.90`). -/
def directThreshold : Rat := mkRat 9 10

/-! ## Retrieval data (`vector_store.py`)

`VectorStore.query` returns `(score, metadata)` pairs; the metadata stored
by ingestion always carries the `question` and `answer` fields. -/

structure FAQMeta where
  question : Str
  answer : Str
deriving DecidableEq, Repr

/-- One retrieval match: similarity score plus metadata. -/
abbrev Match := Rat × FAQMeta

/-! ## Context assembly (`rag.py`, `RAG.build_context`) -/

/-- The block `f"Q: {meta.get('question','')}\nA: {meta.get('answer','')}\n"`
appended for one match. -/
def qaBlock (m : FAQMeta) : Str :=
  "Q: ".data ++ m.question ++ "\nA: ".data ++ m.answer ++ "\n".data

/-- The loop of `build_context`: greedily keep blocks while the running
character count `chars` stays within the budget, `break` at the first
block whose addition would exceed it. -/
def buildParts (budget : Nat) (chars : Nat) : List Str → List Str
  | [] => []
  | qa :: rest =>
      if budget < chars + qa.length then []
      else qa :: buildParts budget (chars + qa.length) rest

/-- The kept blocks of a `build_context` run. -/
def contextParts (cfg : Config) (ms : List Match) : List Str :=
  buildParts cfg.maxContextChars 0 (ms.map (fun p => qaBlock p.2))

/-- `RAG.build_context` given the retrieval result: returns
`(context, should_escalate, best_score)`.  No matches yield
`("", True, 0.0)`; otherwise `best_score` is the first match's score,
`should_escalate = best_score < score_threshold`, and the context is the
newline-join of the greedily kept blocks. -/
def buildContext (cfg : Config) (ms : List Match) : Str × Bool × Rat :=
  match ms with
  | [] => ([], true, 0)
  | (s, _) :: _ =>
      (joinWith "\n".data (contextParts cfg ms), decide (s < cfg.scoreThreshold), s)

/-! ## The answer pipeline (`rag.py`, `RAG.answer`) -/

/-- One turn of `chat_history`: a `{"role": ..., "content": ...}` dict. -/
structure ChatTurn where
  role : Str
  content : Str
deriving DecidableEq, Repr

/-- `f"{m['role']}: {m['content']}"`. -/
def historyLine (m : ChatTurn) : Str := m.role ++ ": ".data ++ m.content

/-- The `history_text` the prompts are formatted with. -/
def historyText (h : List ChatTurn) : Str := joinWith "\n".data (h.map historyLine)

/-- Oracle for the generative model: for each call site, the text
`model.generate_content(prompt).text` as a function of the values the
prompt template is formatted with. -/
structure LLM where
  /-- the FAQ_RESPONSE call: context, history text, user question. -/
  faqResponse : Str → Str → Str → Str
  /-- the GENERAL_RESPONSE call: history text, user question. -/
  generalResponse : Str → Str → Str

/-- The direct-extraction attempt of `RAG.answer`:
`context.split("A:", 1)[1].strip().split("\n")[0] if "A:" in context else None`,
with the subsequent `if best_answer:` truthiness test folded in
(`none` when the extracted line is empty). -/
def extractBest (context : Str) : Option Str :=
  match afterFirst "A:".data context with
  | none => none
  | some rest =>
      let ln := firstLine (pyStrip rest)
      if ln.isEmpty then none else some ln

/-- The escalation scan of `RAG.get_general_answer`:
`"ESCALATE_TO_HUMAN" in answer.upper() or "escalate" in answer.lower()`. -/
def escalSignal (ans : Str) : Bool :=
  containsSub "ESCALATE_TO_HUMAN".data (pyUpper ans) ||
    containsSub "escalate".data (pyLower ans)

/-- Apostrophe character, kept out of string literals. -/
def apos : Char := Char.ofNat 39

/-- The fixed apology/handoff message returned on escalation. -/
def apologyMessage : Str :=
  "I apologize, but I".data ++ [apos] ++
    "m unable to provide a specific answer to your question. Let me connect you with a human agent who can better assist you.".data

/-- `RAG.answer` given the retrieval result `matches`: returns
`(answer, should_escalate, score, response_type)`.  Mirrors the source:
the FAQ branch requires a truthy (non-empty) context AND
`not should_escalate`; inside it, `score >= 0.90` first attempts direct
extraction and otherwise (or when extraction yields nothing) calls the
generative model under the FAQ template; the remaining branch takes the
general-knowledge path of `get_general_answer` and escalates exactly when
the scanned signal fires. -/
def answerOf (cfg : Config) (llm : LLM) (ms : List Match)
    (history : List ChatTurn) (query : Str) : Str × Bool × Rat × Str :=
  let c := buildContext cfg ms
  let context := c.1
  let shouldEsc := c.2.1
  let score := c.2.2
  let trimmed := lastN 6 history
  let htext := historyText trimmed
  let faqGen : Str × Bool × Rat × Str :=
    (pyStrip (llm.faqResponse context htext query), false, score, "faq".data)
  if !context.isEmpty && !shouldEsc then
    if directThreshold ≤ score then
      (match extractBest context with
       | some best => (best, false, score, "faq".data)
       | none => faqGen)
    else faqGen
  else
    let genAnswer := pyStrip (llm.generalResponse htext query)
    if escalSignal genAnswer then
      (apologyMessage, true, score, "escalated".data)
    else
      (genAnswer, false, score, "general".data)

example :
    buildContext defaultConfig [(mkRat 4 5, ⟨"q".data, "a".data⟩)] =
      ("Q: q\nA: a\n".data, false, mkRat 4 5) := by decide

example :
    buildContext (⟨3, mkRat 3 4, 16⟩ : Config) [(mkRat 4 5, ⟨[], []⟩), (mkRat 2 5, ⟨[], []⟩)] =
      ("Q: \nA: \n\nQ: \nA: \n".data, false, mkRat 4 5) := by decide

example : escalSignal "Please EsCaLaTe now".data = true := by decide

example : extractBest "Q: q\nA: a\n".data = some "a".data := by decide

/-! ## Action suggestions (`rag.py`, `RAG.suggest_next_actions`)

The topic-analysis sub-call only feeds the prompt of the
suggestion-generation call, so the embedding takes the outcome of that
second `generate_content` call directly: `.error` models the `except`
branch, `.ok txt` the returned `response.text`. -/

/-- The filler openers filtered out:
`action.lower().startswith(('here', 'you can', 'please', 'thank'))`. -/
def fillerOpeners : List Str :=
  ["here".data, "you can".data, "please".data, "thank".data]

/-- The filter of `suggest_next_actions`: keep a candidate only if its
length exceeds 10 and it does not begin with a filler opener. -/
def keepAction (a : Str) : Bool :=
  decide (10 < a.length) &&
    !(fillerOpeners.any (fun p => List.isPrefixOf p (pyLower a)))

/-- The fixed fallback list returned when the suggestion-generation call
fails. -/
def fallbackSuggestions : List Str :=
  ["Can you provide more details about your specific situation?".data,
   "Would you like me to walk you through the steps?".data,
   "Do you need help with anything else related to this?".data,
   ("Is there a specific part you".data ++ [apos] ++ "re having trouble with?".data)]

/-- `RAG.suggest_next_actions` given the outcome of the
suggestion-generation model call: on failure the fallback list; on
success the response is stripped, split into lines, each line stripped,
empty lines dropped, the filler/length filter applied, and the first
five survivors returned. -/
def suggestNextActions (actionsResult : Except Unit Str) : List Str :=
  match actionsResult with
  | .error _ => fallbackSuggestions
  | .ok txt =>
      let actions := ((splitNL (pyStrip txt)).map pyStrip).filter (fun a => !a.isEmpty)
      (actions.filter keepAction).take 5

example :
    suggestNextActions (.ok "Here is one\nCheck the billing page today\n\n  short  \nPLEASE wait\nWhat browsers are supported?".data) =
      ["Check the billing page today".data, "What browsers are supported?".data] := by
  decide

/-! ## Session lifecycle (`session_manager.py`, `db/models.py`)

`ChatSession` and `ChatMessage` rows; `uuid4` primary keys are modelled
by per-table fresh-id counters carried in the `Store`. -/

structure ChatSession where
  id : Nat
  createdAt : Nat
  updatedAt : Nat
  expiresAt : Option Nat
  isActive : Bool
  messageCount : Nat
  lastActivity : Nat
deriving DecidableEq, Repr

structure ChatMessage where
  id : Nat
  sessionId : Nat
  role : Str
  content : Str
  createdAt : Nat
deriving DecidableEq, Repr

/-- The persistent state behind one `SessionManager`'s `AsyncSession`. -/
structure Store where
  sessions : List ChatSession
  messages : List ChatMessage
  nextSessionId : Nat
  nextMessageId : Nat
deriving DecidableEq, Repr

/-- `SessionException(message, session_id)`. -/
structure SessionErr where
  message : Str
  sessionId : Nat
deriving DecidableEq, Repr

/-- `self.session_timeout = timedelta(hours=24)`, in seconds. -/
def sessionTimeout : Nat := 24 * 60 * 60

/-- The lookup filter of `get_or_create_session`:
`id == session_id AND is_active == True AND expires_at > utcnow()`
(an SQL `NULL` expiration never compares greater). -/
def activeUnexpired (now : Nat) (sid : Nat) (s : ChatSession) : Bool :=
  decide (s.id = sid) && s.isActive &&
    (match s.expiresAt with
     | some e => decide (now < e)
     | none => false)

/-- The lookup filter of `add_message` / `list_messages`:
`id == session_id AND is_active == True` — note that, unlike
`get_or_create_session`, expiration is NOT part of this filter. -/
def activeFilter (sid : Nat) (s : ChatSession) : Bool :=
  decide (s.id = sid) && s.isActive

/-- The fresh-session branch of `get_or_create_session`: a new row with
`expires_at = utcnow() + session_timeout` and column defaults. -/
def createSession (st : Store) (now : Nat) : ChatSession × Store :=
  let s : ChatSession :=
    { id := st.nextSessionId, createdAt := now, updatedAt := now,
      expiresAt := some (now + sessionTimeout), isActive := true,
      messageCount := 0, lastActivity := now }
  (s, { st with sessions := st.sessions ++ [s], nextSessionId := st.nextSessionId + 1 })

/-- `_update_session_activity`: refresh `last_activity`, push
`expires_at` forward by the sliding window, refresh `updated_at`. -/
def refreshSession (now : Nat) (s : ChatSession) : ChatSession :=
  { s with lastActivity := now, expiresAt := some (now + sessionTimeout), updatedAt := now }

/-- `SessionManager.get_or_create_session`: on a hit of the
active/unexpired lookup the row is refreshed; on any miss (absent id,
unknown id, inactive, or expired) a fresh session is created. -/
def getOrCreateSession (st : Store) (now : Nat) (sid? : Option Nat) : ChatSession × Store :=
  match sid? with
  | none => createSession st now
  | some sid =>
      match st.sessions.find? (activeUnexpired now sid) with
      | none => createSession st now
      | some s =>
          let s2 := refreshSession now s
          (s2, { st with sessions := st.sessions.map (fun t => if t.id = s.id then s2 else t) })

/-- `SessionManager.add_message`: raises `SessionException` when no
active row has the id (leaving the store untouched); otherwise inserts
the message and, in the same flush, increments `message_count` and
refreshes `last_activity` / `updated_at`. -/
def addMessage (st : Store) (now : Nat) (sid : Nat) (role content : Str) :
    Except SessionErr ChatMessage × Store :=
  match st.sessions.find? (activeFilter sid) with
  | none => (.error ⟨"Session not found or expired".data, sid⟩, st)
  | some s =>
      let msg : ChatMessage :=
        { id := st.nextMessageId, sessionId := sid, role := role,
          content := content, createdAt := now }
      let s2 := { s with messageCount := s.messageCount + 1,
                         lastActivity := now, updatedAt := now }
      (.ok msg,
       { st with messages := st.messages ++ [msg],
                 sessions := st.sessions.map (fun t => if t.id = s.id then s2 else t),
                 nextMessageId := st.nextMessageId + 1 })

/-- Creation-time ordering on messages (`ORDER BY created_at ASC`). -/
def createdLe (a b : ChatMessage) : Prop := a.createdAt ≤ b.createdAt

instance : DecidableRel createdLe := fun a b => Nat.decLe a.createdAt b.createdAt

instance : IsTotal ChatMessage createdLe :=
  ⟨fun a b => Nat.le_total a.createdAt b.createdAt⟩

instance : IsTrans ChatMessage createdLe :=
  ⟨fun _ _ _ h h2 => Nat.le_trans h h2⟩

/-- `SessionManager.list_messages`: same active-row guard as
`add_message`; on success, the session's messages ordered by
`created_at` ascending. -/
def listMessages (st : Store) (sid : Nat) : Except SessionErr (List ChatMessage) :=
  match st.sessions.find? (activeFilter sid) with
  | none => .error ⟨"Session not found or expired".data, sid⟩
  | some _ =>
      .ok (List.insertionSort createdLe (st.messages.filter (fun m => decide (m.sessionId = sid))))

/-- `SessionManager.deactivate_session`: `UPDATE ... WHERE id == sid`
setting `is_active = False`; returns whether a row was affected. -/
def deactivateSession (st : Store) (now : Nat) (sid : Nat) : Bool × Store :=
  (st.sessions.any (fun s => decide (s.id = sid)),
   { st with sessions := st.sessions.map (fun s =>
       if s.id = sid then { s with isActive := false, updatedAt := now } else s) })

/-- `expires_at < utcnow()` (an SQL `NULL` expiration never compares
less). -/
def isExpired (now : Nat) (s : ChatSession) : Bool :=
  match s.expiresAt with
  | some e => decide (e < now)
  | none => false

/-- The sweep filter of `cleanup_expired_sessions`:
`expires_at < utcnow() AND is_active == True`. -/
def sweepFilter (now : Nat) (s : ChatSession) : Bool :=
  isExpired now s && s.isActive

/-- `SessionManager.cleanup_expired_sessions`: select the active
sessions whose expiration has passed, delete their messages, then the
sessions, and return how many sessions were removed. -/
def cleanupExpiredSessions (st : Store) (now : Nat) : Nat × Store :=
  let doomed := st.sessions.filter (sweepFilter now)
  if doomed.isEmpty then (0, st)
  else
    let ids := doomed.map (fun s => s.id)
    (doomed.length,
     { st with messages := st.messages.filter (fun m => !ids.contains m.sessionId),
               sessions := st.sessions.filter (fun s => !ids.contains s.id) })

/-! ## Knowledge-base ingestion (`api/ingest.py`, `vector_store.py`) -/

/-- One `{question, answer}` item of an ingestion batch. -/
structure FAQItem where
  question : Str
  answer : Str
deriving DecidableEq, Repr

/-- The knowledge base: vector ids mapped to their stored metadata (the
embedding vectors themselves play no role in the keying claims). -/
abbrev KB := List (Str × FAQMeta)

/-- A deterministic content hash of a question, standing in for
`uuid.uuid5(uuid.NAMESPACE_URL, q)` (a SHA-1-based digest of the
question text alone); the claims depend only on it being a function of
the question text. -/
def contentHash (q : Str) : Nat :=
  q.foldl (fun h c => (h * 131 + c.toNat) % (2 ^ 128)) 5381

/-- The vector id assigned to a question:
`str(uuid.uuid5(uuid.NAMESPACE_URL, q))`, modelled via `contentHash`. -/
def uuid5Key (q : Str) : Str := "uuid5-".data ++ Nat.toDigits 10 (contentHash q)

/-- Upsert of a single record into the index: an existing record with
the same id is overwritten, otherwise the record is appended. -/
def upsertOne (kb : KB) (k : Str) (m : FAQMeta) : KB :=
  match kb with
  | [] => [(k, m)]
  | e :: es => if e.1 = k then (k, m) :: es else e :: upsertOne es k m

/-- `VectorStore.upsert_faqs`: the batch is upserted record by record,
in order, so a later record with the same id wins. -/
def upsertFAQs (kb : KB) (entries : List (Str × FAQMeta)) : KB :=
  entries.foldl (fun k e => upsertOne k e.1 e.2) kb

/-- `ingest_faq`: rejects an empty batch with a 400, otherwise keys each
item by the content hash of its question, builds the
`{question, answer}` metadata, upserts, and reports the batch size. -/
def ingestFAQ (kb : KB) (items : List FAQItem) : Except Unit (KB × Nat) :=
  if items.isEmpty then .error ()
  else
    let ids := items.map (fun it => uuid5Key it.question)
    let metas := items.map (fun it => (⟨it.question, it.answer⟩ : FAQMeta))
    .ok (upsertFAQs kb (ids.zip metas), ids.length)

/-- Lookup of a record by id. -/
def kbLookup (kb : KB) (k : Str) : Option FAQMeta :=
  (kb.find? (fun e => decide (e.1 = k))).map (fun e => e.2)

example :
    (ingestFAQ [] [⟨"q".data, "a1".data⟩, ⟨"q".data, "a2".data⟩]).map
        (fun r => kbLookup r.1 (uuid5Key "q".data)) =
      .ok (some ⟨"q".data, "a2".data⟩) := rfl

/-! ## Helper lemmas -/

/-- The greedy accumulator keeps every block of a list on which no
prefix overflows. -/
def fitsAll (b : Nat) : Nat → List Str → Bool
  | _, [] => true
  | acc, qa :: rest => decide (acc + qa.length ≤ b) && fitsAll b (acc + qa.length) rest

theorem buildParts_of_fitsAll (b : Nat) :
    ∀ (l : List Str) (acc : Nat), fitsAll b acc l = true → buildParts b acc l = l := by
  intro l
  induction l with
  | nil => intro acc _; rfl
  | cons qa rest ih =>
    intro acc hfit
    simp only [fitsAll, Bool.and_eq_true, decide_eq_true_eq] at hfit
    simp only [buildParts, if_neg (by omega : ¬ b < acc + qa.length)]
    rw [ih _ hfit.2]

theorem buildParts_append_overflow (b : Nat) :
    ∀ (pre : List Str) (acc : Nat) (qa : Str) (rest : List Str),
      fitsAll b acc pre = true → b < acc + sumLen pre + qa.length →
      buildParts b acc (pre ++ qa :: rest) = pre := by
  intro pre
  induction pre with
  | nil =>
    intro acc qa rest _ hover
    simp only [sumLen, List.map_nil, List.sum_nil] at hover
    simp only [List.nil_append, buildParts, if_pos (by omega : b < acc + qa.length)]
  | cons x xs ih =>
    intro acc qa rest hfit hover
    simp only [fitsAll, Bool.and_eq_true, decide_eq_true_eq] at hfit
    simp only [sumLen, List.map_cons, List.sum_cons] at hover
    simp only [List.cons_append, buildParts, List.append_eq,
      if_neg (by omega : ¬ b < acc + x.length)]
    rw [ih (acc + x.length) qa rest hfit.2 (by simp only [sumLen]; omega)]

theorem buildParts_sumLen (b : Nat) :
    ∀ (l : List Str) (acc : Nat), acc ≤ b → acc + sumLen (buildParts b acc l) ≤ b := by
  intro l
  induction l with
  | nil => intro acc h; simpa [buildParts, sumLen] using h
  | cons qa rest ih =>
    intro acc h
    by_cases hc : b < acc + qa.length
    · simp only [buildParts, if_pos hc]
      simpa [sumLen] using h
    · simp only [buildParts, if_neg hc]
      have := ih (acc + qa.length) (by omega)
      simp only [sumLen, List.map_cons, List.sum_cons] at this ⊢
      omega

theorem joinWith_length (sep : Str) :
    ∀ l : List Str, (joinWith sep l).length = sumLen l + sep.length * (l.length - 1) := by
  intro l
  induction l with
  | nil => simp [joinWith, sumLen]
  | cons x xs ih =>
    cases xs with
    | nil => simp [joinWith, sumLen]
    | cons y ys =>
      simp only [joinWith, List.length_append, sumLen, List.map_cons, List.sum_cons,
        List.length_cons, Nat.add_sub_cancel] at ih ⊢
      rw [Nat.mul_succ]
      omega

theorem buildContext_fst (cfg : Config) (ms : List Match) :
    (buildContext cfg ms).1 = joinWith "\n".data (contextParts cfg ms) := by
  cases ms with
  | nil => rfl
  | cons p rest => obtain ⟨s, m⟩ := p; rfl

/-! ## Claims about context assembly (C3, C4) -/

/-- C3 (counterexample): with a budget of 16 characters, two minimal
blocks of 8 characters each both pass the running-count check, but the
joining newline makes the returned context 17 characters long —
exceeding the configured budget, contrary to the claim. -/
theorem c3_counterexample :
    ¬ ((buildContext (⟨3, mkRat 3 4, 16⟩ : Config)
          [(mkRat 4 5, ⟨[], []⟩), (mkRat 2 5, ⟨[], []⟩)]).1.length ≤
        (⟨3, mkRat 3 4, 16⟩ : Config).maxContextChars) := by decide

/-- C3 (amended): the running character count of the kept blocks never
exceeds the budget, so the returned context exceeds the budget by at
most one character per joining newline (kept blocks minus one); and if
the single best match's block alone exceeds the budget, the returned
context is empty. -/
theorem c3_amended (cfg : Config) (ms : List Match) :
    sumLen (contextParts cfg ms) ≤ cfg.maxContextChars ∧
    (buildContext cfg ms).1.length =
      sumLen (contextParts cfg ms) + ((contextParts cfg ms).length - 1) ∧
    (∀ s m rest, ms = (s, m) :: rest →
        cfg.maxContextChars < (qaBlock m).length → (buildContext cfg ms).1 = []) := by
  refine ⟨?_, ?_, ?_⟩
  · simpa using buildParts_sumLen cfg.maxContextChars
      (ms.map (fun p => qaBlock p.2)) 0 (Nat.zero_le _)
  · rw [buildContext_fst]
    simpa using joinWith_length "\n".data (contextParts cfg ms)
  · intro s m rest hms hover
    subst hms
    rw [buildContext_fst]
    simp only [contextParts, List.map_cons, buildParts,
      if_pos (by omega : cfg.maxContextChars < 0 + (qaBlock m).length)]
    rfl

/-- C3 (amended, witness): a single block of 10 characters against a
budget of 5 yields the empty context. -/
theorem c3_amended_witness :
    (buildContext (⟨3, mkRat 3 4, 5⟩ : Config) [(mkRat 4 5, ⟨"q".data, "a".data⟩)]).1 = [] :=
  (c3_amended (⟨3, mkRat 3 4, 5⟩ : Config) [(mkRat 4 5, ⟨"q".data, "a".data⟩)]).2.2
    (mkRat 4 5) ⟨"q".data, "a".data⟩ [] rfl (by decide)

/-- C4: context assembly is fill-from-the-top, stop-at-first-overflow:
if the greedy count keeps every block of the prefix `pre` and the next
block (of match `m`) overflows the budget, then the assembled context
consists exactly of the blocks of `pre`, independently of everything
ranked below `m` — lower-ranked matches contribute nothing even if
their own blocks would fit. -/
theorem c4_first_overflow_stops (cfg : Config) (pre : List Match) (m : Match)
    (rest rest2 : List Match)
    (hfits : fitsAll cfg.maxContextChars 0 (pre.map (fun p => qaBlock p.2)) = true)
    (hover : cfg.maxContextChars <
        sumLen (pre.map (fun p => qaBlock p.2)) + (qaBlock m.2).length) :
    (buildContext cfg (pre ++ m :: rest)).1 = (buildContext cfg (pre ++ m :: rest2)).1 ∧
    (buildContext cfg (pre ++ m :: rest)).1 =
      joinWith "\n".data (pre.map (fun p => qaBlock p.2)) := by
  have hparts : ∀ r : List Match,
      contextParts cfg (pre ++ m :: r) = pre.map (fun p => qaBlock p.2) := by
    intro r
    unfold contextParts
    rw [List.map_append, List.map_cons]
    exact buildParts_append_overflow cfg.maxContextChars _ 0 _ _ hfits (by omega)
  constructor
  · rw [buildContext_fst, buildContext_fst, hparts, hparts]
  · rw [buildContext_fst, hparts]

/-- C4 (witness): with budget 16, a kept 8-character block, an
overflowing 16-character block, and a trailing 8-character block that
would fit on its own, the trailing match contributes nothing. -/
theorem c4_witness :
    (buildContext (⟨3, mkRat 3 4, 16⟩ : Config)
        [(mkRat 4 5, ⟨[], []⟩), (mkRat 3 5, ⟨"12345678".data, []⟩), (mkRat 2 5, ⟨[], []⟩)]).1 =
      (buildContext (⟨3, mkRat 3 4, 16⟩ : Config)
        [(mkRat 4 5, ⟨[], []⟩), (mkRat 3 5, ⟨"12345678".data, []⟩)]).1 ∧
    (buildContext (⟨3, mkRat 3 4, 16⟩ : Config)
        [(mkRat 4 5, ⟨[], []⟩), (mkRat 3 5, ⟨"12345678".data, []⟩), (mkRat 2 5, ⟨[], []⟩)]).1 =
      joinWith "\n".data [qaBlock ⟨[], []⟩] :=
  c4_first_overflow_stops (⟨3, mkRat 3 4, 16⟩ : Config) [(mkRat 4 5, ⟨[], []⟩)]
    (mkRat 3 5, ⟨"12345678".data, []⟩) [(mkRat 2 5, ⟨[], []⟩)] []
    (by decide) (by decide)

/-! ## Claims about the answer tiers (C1, C2) -/

/-- C1 (counterexample): a single match scoring 0.95 whose block exceeds
a budget of 5 characters gives sufficient evidence (`should_escalate`
is false) and `bestScore ≥ 0.90`, yet the assembled context is empty,
so `RAG.answer` takes the general-knowledge branch: the result carries
tier `general` and depends on the generative model's output — it is not
the direct extraction (nor the `faq` tier) the claim requires. -/
theorem c1_counterexample :
    (buildContext (⟨3, mkRat 3 4, 5⟩ : Config) [(mkRat 19 20, ⟨"q".data, "a".data⟩)]).2.1
        = false ∧
    directThreshold ≤
      (buildContext (⟨3, mkRat 3 4, 5⟩ : Config) [(mkRat 19 20, ⟨"q".data, "a".data⟩)]).2.2 ∧
    (answerOf (⟨3, mkRat 3 4, 5⟩ : Config) ⟨fun _ _ _ => [], fun _ _ => "alpha".data⟩
        [(mkRat 19 20, ⟨"q".data, "a".data⟩)] [] []).2.2.2 = "general".data ∧
    answerOf (⟨3, mkRat 3 4, 5⟩ : Config) ⟨fun _ _ _ => [], fun _ _ => "alpha".data⟩
        [(mkRat 19 20, ⟨"q".data, "a".data⟩)] [] [] ≠
      answerOf (⟨3, mkRat 3 4, 5⟩ : Config) ⟨fun _ _ _ => [], fun _ _ => "beta".data⟩
        [(mkRat 19 20, ⟨"q".data, "a".data⟩)] [] [] := by
  refine ⟨rfl, by decide, rfl, ?_⟩
  intro h
  exact absurd (congrArg Prod.fst h) (by decide)

/-- C1 (amended): when the evidence is sufficient AND the assembled
context is non-empty: if `bestScore ≥ 0.90` and extracting the first
line after the first `"A:"` of the context yields a non-empty line, the
answer is that line with tier `faq` and `escalate = false`, with no
generative-model call (the result is the same for every oracle); if the
extraction yields nothing, or `bestScore < 0.90` (i.e. bestScore lies
in `[score_threshold, 0.90)`), the answer is the generative model's FAQ
response with tier `faq` and `escalate = false`. -/
theorem c1_amended (cfg : Config) (llm : LLM) (ms : List Match)
    (history : List ChatTurn) (query : Str)
    (hctx : (buildContext cfg ms).1 ≠ [])
    (hesc : (buildContext cfg ms).2.1 = false) :
    (∀ ext, directThreshold ≤ (buildContext cfg ms).2.2 →
        extractBest (buildContext cfg ms).1 = some ext →
        ∀ llm2 : LLM, answerOf cfg llm2 ms history query =
          (ext, false, (buildContext cfg ms).2.2, "faq".data)) ∧
    (directThreshold ≤ (buildContext cfg ms).2.2 →
        extractBest (buildContext cfg ms).1 = none →
        answerOf cfg llm ms history query =
          (pyStrip (llm.faqResponse (buildContext cfg ms).1
              (historyText (lastN 6 history)) query),
            false, (buildContext cfg ms).2.2, "faq".data)) ∧
    ((buildContext cfg ms).2.2 < directThreshold →
        answerOf cfg llm ms history query =
          (pyStrip (llm.faqResponse (buildContext cfg ms).1
              (historyText (lastN 6 history)) query),
            false, (buildContext cfg ms).2.2, "faq".data)) := by
  have hne : (buildContext cfg ms).1.isEmpty = false := by
    cases hc : (buildContext cfg ms).1 with
    | nil => exact absurd hc hctx
    | cons a l => rfl
  refine ⟨?_, ?_, ?_⟩
  · intro ext hge hext llm2
    simp only [answerOf, hne, hesc, Bool.not_false, Bool.and_self, if_true, if_pos hge, hext]
  · intro hge hext
    simp only [answerOf, hne, hesc, Bool.not_false, Bool.and_self, if_true, if_pos hge, hext]
  · intro hlt
    simp only [answerOf, hne, hesc, Bool.not_false, Bool.and_self, if_true,
      if_neg (not_le.mpr hlt)]

/-- C1 (amended, witness): a 0.95-scoring match under the default
configuration is answered by direct extraction of the first answer
line. -/
theorem c1_amended_witness :
    answerOf defaultConfig ⟨fun _ _ _ => "X".data, fun _ _ => "Y".data⟩
        [(mkRat 19 20, ⟨"q".data, "a".data⟩)] [] [] =
      ("a".data, false, mkRat 19 20, "faq".data) :=
  (c1_amended defaultConfig ⟨fun _ _ _ => "X".data, fun _ _ => "Y".data⟩
      [(mkRat 19 20, ⟨"q".data, "a".data⟩)] [] [] (by decide) (by decide)).1
    "a".data (by decide) (by decide) ⟨fun _ _ _ => "X".data, fun _ _ => "Y".data⟩

/-- C2: whenever evidence is insufficient (no matches, or best score
below the threshold — in which case `should_escalate` is true), the
pipeline takes the general-knowledge path: the general model output is
scanned by `escalSignal` (case-insensitively for the marker
`ESCALATE_TO_HUMAN` or the substring `escalate`), and exactly when the
scan fires the result is the fixed apology message with tier
`escalated`, `escalate = true`, and the bestScore of context assembly
passed through unchanged; otherwise the output itself is returned with
tier `general` and `escalate = false`. -/
theorem c2_insufficient_general_path (cfg : Config) (llm : LLM) (ms : List Match)
    (history : List ChatTurn) (query : Str)
    (hins : ms = [] ∨ (buildContext cfg ms).2.2 < cfg.scoreThreshold) :
    (escalSignal (pyStrip (llm.generalResponse (historyText (lastN 6 history)) query))
          = true →
        answerOf cfg llm ms history query =
          (apologyMessage, true, (buildContext cfg ms).2.2, "escalated".data)) ∧
    (escalSignal (pyStrip (llm.generalResponse (historyText (lastN 6 history)) query))
          = false →
        answerOf cfg llm ms history query =
          (pyStrip (llm.generalResponse (historyText (lastN 6 history)) query),
            false, (buildContext cfg ms).2.2, "general".data)) := by
  have h21 : (buildContext cfg ms).2.1 = true := by
    rcases hins with h | h
    · subst h; rfl
    · cases ms with
      | nil => rfl
      | cons p rest =>
        obtain ⟨s, m⟩ := p
        simp only [buildContext] at h ⊢
        exact decide_eq_true h
  constructor
  · intro hsig
    simp only [answerOf, h21, Bool.not_true, Bool.and_false, Bool.false_eq_true,
      if_false, hsig, if_true]
  · intro hsig
    simp only [answerOf, h21, Bool.not_true, Bool.and_false, Bool.false_eq_true,
      if_false, hsig]

/-- C2 (witness): with no matches and a general response demanding
escalation, the result is the apology message, tier `escalated`,
escalate = true, score 0.0. -/
theorem c2_witness :
    answerOf defaultConfig ⟨fun _ _ _ => [], fun _ _ => "Please ESCALATE_TO_HUMAN now".data⟩
        [] [] [] =
      (apologyMessage, true, 0, "escalated".data) :=
  (c2_insufficient_general_path defaultConfig
      ⟨fun _ _ _ => [], fun _ _ => "Please ESCALATE_TO_HUMAN now".data⟩ [] [] []
      (Or.inl rfl)).1 (by decide)

/-! ## Helper lemmas for the session store -/

theorem find?_eq_some_of_unique {α : Type _} {p : α → Bool} {l : List α} {s : α}
    (hmem : s ∈ l) (hp : p s = true) (huniq : ∀ t ∈ l, p t = true → t = s) :
    l.find? p = some s := by
  induction l with
  | nil => cases hmem
  | cons x xs ih =>
    by_cases hx : p x = true
    · rw [List.find?_cons_of_pos _ hx, huniq x (List.mem_cons_self x xs) hx]
    · rw [List.find?_cons_of_neg _ hx]
      rcases List.mem_cons.mp hmem with h | h
      · exact absurd (h ▸ hp) hx
      · exact ih h (fun t ht hpt => huniq t (List.mem_cons_of_mem x ht) hpt)

theorem activeFilter_eq_true {sid : Nat} {s : ChatSession} :
    activeFilter sid s = true ↔ s.id = sid ∧ s.isActive = true := by
  simp [activeFilter, Bool.and_eq_true, decide_eq_true_eq]

theorem activeUnexpired_eq_true {now sid : Nat} {s : ChatSession} :
    activeUnexpired now sid s = true ↔
      s.id = sid ∧ s.isActive = true ∧ ∃ e, s.expiresAt = some e ∧ now < e := by
  unfold activeUnexpired
  cases he : s.expiresAt with
  | none => simp [he]
  | some e => simp [he, Bool.and_eq_true, decide_eq_true_eq, and_assoc]

/-! ## Claims about message operations (C6, C8) -/

/-- C6 (counterexample): a session that is still active but whose
expiration has already passed (`expires_at = 10`, call time `100`) is
not eligible per the claim, yet both `add_message` and `list_messages`
succeed on it — the `id AND is_active` lookup of those operations never
consults the expiration timestamp. -/
theorem c6_counterexample :
    isExpired 100 ⟨1, 0, 0, some 10, true, 0, 0⟩ = true ∧
    (addMessage (⟨[⟨1, 0, 0, some 10, true, 0, 0⟩], [], 2, 5⟩ : Store) 100 1
        "user".data "hi".data).1 = .ok ⟨5, 1, "user".data, "hi".data, 100⟩ ∧
    listMessages (⟨[⟨1, 0, 0, some 10, true, 0, 0⟩], [], 2, 5⟩ : Store) 1 = .ok [] :=
  ⟨by decide, rfl, rfl⟩

/-- C6 (amended): `add_message` and `list_messages` fail with
`SessionException` exactly when no session row with the given id is
active — expiration is not checked by these operations; when the lookup
succeeds, `list_messages` returns precisely the session's messages
(a permutation of the store's messages filtered to that session)
ordered by creation time ascending. -/
theorem c6_amended (st : Store) (now sid : Nat) (role content : Str) :
    ((∃ e, (addMessage st now sid role content).1 = .error e) ↔
        ¬ ∃ s ∈ st.sessions, s.id = sid ∧ s.isActive = true) ∧
    ((∃ e, listMessages st sid = .error e) ↔
        ¬ ∃ s ∈ st.sessions, s.id = sid ∧ s.isActive = true) ∧
    (∀ msgs, listMessages st sid = .ok msgs →
        List.Sorted createdLe msgs ∧
        msgs.Perm (st.messages.filter (fun m => decide (m.sessionId = sid)))) := by
  have hiff : st.sessions.find? (activeFilter sid) = none ↔
      ¬ ∃ s ∈ st.sessions, s.id = sid ∧ s.isActive = true := by
    rw [List.find?_eq_none]
    constructor
    · rintro h ⟨s, hs, h1, h2⟩
      exact h s hs (activeFilter_eq_true.mpr ⟨h1, h2⟩)
    · intro h s hs hp
      exact h ⟨s, hs, (activeFilter_eq_true.mp hp).1, (activeFilter_eq_true.mp hp).2⟩
  refine ⟨?_, ?_, ?_⟩
  · cases hf : st.sessions.find? (activeFilter sid) with
    | none =>
      unfold addMessage
      rw [hf]
      exact ⟨fun _ => hiff.mp hf, fun _ => ⟨_, rfl⟩⟩
    | some s =>
      unfold addMessage
      rw [hf]
      constructor
      · rintro ⟨e, he⟩; simp at he
      · intro hno
        exact absurd ⟨s, List.mem_of_find?_eq_some hf,
          (activeFilter_eq_true.mp (List.find?_some hf)).1,
          (activeFilter_eq_true.mp (List.find?_some hf)).2⟩ hno
  · cases hf : st.sessions.find? (activeFilter sid) with
    | none =>
      unfold listMessages
      rw [hf]
      exact ⟨fun _ => hiff.mp hf, fun _ => ⟨_, rfl⟩⟩
    | some s =>
      unfold listMessages
      rw [hf]
      constructor
      · rintro ⟨e, he⟩; simp at he
      · intro hno
        exact absurd ⟨s, List.mem_of_find?_eq_some hf,
          (activeFilter_eq_true.mp (List.find?_some hf)).1,
          (activeFilter_eq_true.mp (List.find?_some hf)).2⟩ hno
  · intro msgs hok
    cases hf : st.sessions.find? (activeFilter sid) with
    | none => unfold listMessages at hok; rw [hf] at hok; simp at hok
    | some s =>
      unfold listMessages at hok
      rw [hf] at hok
      cases hok
      exact ⟨List.sorted_insertionSort createdLe _, List.perm_insertionSort createdLe _⟩

/-- C6 (amended, witness): on a store with one active session and two
messages stored out of creation order, `list_messages` returns them
sorted ascending and they are a permutation of the session's
messages. -/
theorem c6_amended_witness :
    List.Sorted createdLe
      [⟨8, 1, "assistant".data, "b".data, 20⟩, ⟨7, 1, "user".data, "a".data, 50⟩] ∧
    List.Perm
      [(⟨8, 1, "assistant".data, "b".data, 20⟩ : ChatMessage),
        ⟨7, 1, "user".data, "a".data, 50⟩]
      ((⟨[⟨1, 0, 0, some 10, true, 2, 0⟩],
          [⟨7, 1, "user".data, "a".data, 50⟩, ⟨8, 1, "assistant".data, "b".data, 20⟩],
          2, 9⟩ : Store).messages.filter (fun m => decide (m.sessionId = 1))) :=
  (c6_amended (⟨[⟨1, 0, 0, some 10, true, 2, 0⟩],
      [⟨7, 1, "user".data, "a".data, 50⟩, ⟨8, 1, "assistant".data, "b".data, 20⟩],
      2, 9⟩ : Store) 0 1 [] []).2.2
    [⟨8, 1, "assistant".data, "b".data, 20⟩, ⟨7, 1, "user".data, "a".data, 50⟩] rfl

/-- C8: on a store with unique session ids, `add_message` against a
deactivated session fails with `SessionException` and returns the store
unchanged (no message inserted, no counter or timestamp touched), while
against an active session it returns, in one step, the inserted message
together with the store holding the appended message and the session
with incremented `message_count` and refreshed `last_activity` /
`updated_at`. -/
theorem c8_deactivated_no_side_effects (st : Store) (now sid : Nat) (role content : Str)
    (hN : (st.sessions.map (fun s => s.id)).Nodup) :
    (∀ s ∈ st.sessions, s.id = sid → s.isActive = false →
        addMessage st now sid role content =
          (.error ⟨"Session not found or expired".data, sid⟩, st)) ∧
    (∀ s ∈ st.sessions, s.id = sid → s.isActive = true →
        addMessage st now sid role content =
          (.ok ⟨st.nextMessageId, sid, role, content, now⟩,
            { st with
                messages := st.messages ++ [⟨st.nextMessageId, sid, role, content, now⟩],
                sessions := st.sessions.map (fun t => if t.id = s.id then
                  { s with messageCount := s.messageCount + 1,
                           lastActivity := now, updatedAt := now } else t),
                nextMessageId := st.nextMessageId + 1 })) := by
  constructor
  · intro s hs hid hact
    have hf : st.sessions.find? (activeFilter sid) = none := by
      rw [List.find?_eq_none]
      intro t ht hp
      obtain ⟨hp1, hp2⟩ := activeFilter_eq_true.mp hp
      have : t = s := List.inj_on_of_nodup_map hN ht hs (by rw [hp1, hid])
      rw [this] at hp2
      exact absurd hp2 (by rw [hact]; simp)
    unfold addMessage
    rw [hf]
  · intro s hs hid hact
    have hf : st.sessions.find? (activeFilter sid) = some s := by
      refine find?_eq_some_of_unique hs (activeFilter_eq_true.mpr ⟨hid, hact⟩) ?_
      intro t ht hpt
      exact List.inj_on_of_nodup_map hN ht hs
        (by rw [(activeFilter_eq_true.mp hpt).1, hid])
    unfold addMessage
    rw [hf]

/-- C8 (witness): concrete runs of both branches — failure on a
deactivated session leaves the one-session store untouched; success on
an active session appends the message and bumps the session row. -/
theorem c8_witness :
    addMessage (⟨[⟨1, 0, 0, some 10, false, 0, 0⟩], [], 2, 4⟩ : Store) 5 1
        "user".data "hi".data =
      (.error ⟨"Session not found or expired".data, 1⟩,
        (⟨[⟨1, 0, 0, some 10, false, 0, 0⟩], [], 2, 4⟩ : Store)) ∧
    addMessage (⟨[⟨1, 0, 0, some 10, true, 0, 0⟩], [], 2, 4⟩ : Store) 5 1
        "user".data "hi".data =
      (.ok ⟨4, 1, "user".data, "hi".data, 5⟩,
        (⟨[⟨1, 0, 5, some 10, true, 1, 5⟩], [⟨4, 1, "user".data, "hi".data, 5⟩],
          2, 5⟩ : Store)) :=
  ⟨(c8_deactivated_no_side_effects (⟨[⟨1, 0, 0, some 10, false, 0, 0⟩], [], 2, 4⟩ : Store)
      5 1 "user".data "hi".data (by decide)).1
      ⟨1, 0, 0, some 10, false, 0, 0⟩ (by decide) rfl rfl,
   (c8_deactivated_no_side_effects (⟨[⟨1, 0, 0, some 10, true, 0, 0⟩], [], 2, 4⟩ : Store)
      5 1 "user".data "hi".data (by decide)).2
      ⟨1, 0, 0, some 10, true, 0, 0⟩ (by decide) rfl rfl⟩

/-! ## Claims about the expiry sweep (C5) -/

theorem contains_doomed_session (st : Store) (now : Nat)
    (hN : (st.sessions.map (fun s => s.id)).Nodup)
    {s : ChatSession} (hs : s ∈ st.sessions) :
    ((st.sessions.filter (sweepFilter now)).map (fun t => t.id)).contains s.id
      = sweepFilter now s := by
  rw [List.contains_eq_any_beq]
  cases hsw : sweepFilter now s with
  | true =>
    simp only [List.any_eq_true, List.mem_map]
    exact ⟨s.id, ⟨s, List.mem_filter.mpr ⟨hs, hsw⟩, rfl⟩, by simp⟩
  | false =>
    simp only [List.any_eq_false, List.mem_map]
    rintro x ⟨t, ht, rfl⟩ hp
    have hmem := List.mem_filter.mp ht
    have : t = s :=
      List.inj_on_of_nodup_map hN hmem.1 hs (eq_of_beq hp).symm
    rw [this] at hmem
    exact absurd hmem.2 (by rw [hsw]; simp)

theorem contains_doomed_message (st : Store) (now : Nat) (y : Nat) :
    ((st.sessions.filter (sweepFilter now)).map (fun t => t.id)).contains y
      = st.sessions.any (fun s => sweepFilter now s && decide (s.id = y)) := by
  rw [List.contains_eq_any_beq]
  cases h : (List.map (fun t => t.id) (st.sessions.filter (sweepFilter now))).any
      (fun x => y == x) with
  | true =>
    symm
    simp only [List.any_eq_true, List.mem_map] at h ⊢
    obtain ⟨x, ⟨t, ht, rfl⟩, hp⟩ := h
    have hmem := List.mem_filter.mp ht
    exact ⟨t, hmem.1, by simp [hmem.2, (eq_of_beq hp).symm]⟩
  | false =>
    symm
    simp only [List.any_eq_false, List.mem_map] at h ⊢
    intro s hs hp
    simp only [Bool.and_eq_true, decide_eq_true_eq] at hp
    exact h s.id ⟨s, List.mem_filter.mpr ⟨hs, hp.1⟩, rfl⟩ (by simp [hp.2])

/-- C5 (counterexample): a deactivated session whose expiration has
long passed (`expires_at = 10`, call time `100`) is skipped by the
sweep — `cleanup_expired_sessions` only selects active rows — so the
claim that exactly the sessions whose expiration has passed are removed
fails: the sweep returns count 0 and leaves the store unchanged. -/
theorem c5_counterexample :
    isExpired 100 ⟨1, 0, 0, some 10, false, 0, 0⟩ = true ∧
    cleanupExpiredSessions
        (⟨[⟨1, 0, 0, some 10, false, 0, 0⟩], [⟨3, 1, "user".data, "x".data, 1⟩], 2, 4⟩ : Store)
        100 =
      (0, (⟨[⟨1, 0, 0, some 10, false, 0, 0⟩],
          [⟨3, 1, "user".data, "x".data, 1⟩], 2, 4⟩ : Store)) :=
  ⟨by decide, rfl⟩

/-- C5 (amended): on a store with unique session ids, the sweep removes
exactly the sessions that are both active and expired at call time,
together with all of their messages, returns the number of sessions
removed, and leaves every other session (unexpired, or already
deactivated) and its messages unchanged. -/
theorem c5_amended (st : Store) (now : Nat)
    (hN : (st.sessions.map (fun s => s.id)).Nodup) :
    (cleanupExpiredSessions st now).1 = (st.sessions.filter (sweepFilter now)).length ∧
    (cleanupExpiredSessions st now).2.sessions
        = st.sessions.filter (fun s => !sweepFilter now s) ∧
    (cleanupExpiredSessions st now).2.messages
        = st.messages.filter (fun m =>
            !(st.sessions.any (fun s => sweepFilter now s && decide (s.id = m.sessionId)))) := by
  by_cases hd : (st.sessions.filter (sweepFilter now)).isEmpty = true
  · have hnil : st.sessions.filter (sweepFilter now) = [] := List.isEmpty_iff.mp hd
    have hall : ∀ s ∈ st.sessions, ¬ sweepFilter now s = true := List.filter_eq_nil_iff.mp hnil
    unfold cleanupExpiredSessions
    rw [if_pos hd]
    refine ⟨by rw [hnil]; rfl, ?_, ?_⟩
    · symm
      rw [List.filter_eq_self]
      intro s hs
      cases hsw : sweepFilter now s with
      | false => rfl
      | true => exact absurd hsw (hall s hs)
    · symm
      rw [List.filter_eq_self]
      intro m _
      have : st.sessions.any (fun s => sweepFilter now s && decide (s.id = m.sessionId))
          = false := by
        rw [List.any_eq_false]
        intro s hs hp
        simp only [Bool.and_eq_true] at hp
        exact hall s hs hp.1
      rw [this]
      rfl
  · unfold cleanupExpiredSessions
    rw [if_neg hd]
    refine ⟨rfl, ?_, ?_⟩
    · apply List.filter_congr
      intro s hs
      rw [contains_doomed_session st now hN hs]
    · apply List.filter_congr
      intro m _
      rw [contains_doomed_message st now m.sessionId]

/-- C5 (amended, witness): a store with one active expired session
(owning one message) and one active unexpired session (owning another):
the sweep removes exactly the first session and its message and reports
count 1. -/
theorem c5_amended_witness :
    (cleanupExpiredSessions
        (⟨[⟨1, 0, 0, some 10, true, 1, 0⟩, ⟨2, 0, 0, some 200, true, 1, 0⟩],
          [⟨3, 1, "user".data, "x".data, 1⟩, ⟨4, 2, "user".data, "y".data, 2⟩],
          5, 6⟩ : Store) 100).1 = 1 ∧
    (cleanupExpiredSessions
        (⟨[⟨1, 0, 0, some 10, true, 1, 0⟩, ⟨2, 0, 0, some 200, true, 1, 0⟩],
          [⟨3, 1, "user".data, "x".data, 1⟩, ⟨4, 2, "user".data, "y".data, 2⟩],
          5, 6⟩ : Store) 100).2.sessions = [⟨2, 0, 0, some 200, true, 1, 0⟩] ∧
    (cleanupExpiredSessions
        (⟨[⟨1, 0, 0, some 10, true, 1, 0⟩, ⟨2, 0, 0, some 200, true, 1, 0⟩],
          [⟨3, 1, "user".data, "x".data, 1⟩, ⟨4, 2, "user".data, "y".data, 2⟩],
          5, 6⟩ : Store) 100).2.messages = [⟨4, 2, "user".data, "y".data, 2⟩] := by
  have h := c5_amended
    (⟨[⟨1, 0, 0, some 10, true, 1, 0⟩, ⟨2, 0, 0, some 200, true, 1, 0⟩],
      [⟨3, 1, "user".data, "x".data, 1⟩, ⟨4, 2, "user".data, "y".data, 2⟩],
      5, 6⟩ : Store) 100 (by decide)
  exact ⟨h.1, h.2.1, h.2.2⟩

/-! ## Claims about session resolution (C7) -/

/-- C7 (counterexample): a session whose stored expiration already
equals `now + session_timeout` (e.g. refreshed by a call under the same
clock reading) is active and unexpired at call time 50, yet
`get_or_create_session` returns it with the SAME expiration timestamp —
not a strictly later one as the claim demands. -/
theorem c7_counterexample :
    activeUnexpired 50 1 ⟨1, 0, 0, some (50 + sessionTimeout), true, 0, 0⟩ = true ∧
    (getOrCreateSession
        (⟨[⟨1, 0, 0, some (50 + sessionTimeout), true, 0, 0⟩], [], 2, 0⟩ : Store)
        50 (some 1)).1.id = 1 ∧
    (getOrCreateSession
        (⟨[⟨1, 0, 0, some (50 + sessionTimeout), true, 0, 0⟩], [], 2, 0⟩ : Store)
        50 (some 1)).1.expiresAt = some (50 + sessionTimeout) :=
  ⟨by decide, rfl, rfl⟩

/-- C7 (amended): `resolveOrCreate` is total (it always returns a
session).  On a store with unique ids, given the id of an active,
unexpired session it returns that session refreshed: same id,
expiration rewritten to `now + session_timeout` (which is strictly
later than the previous expiration exactly when the previous expiration
predates `now + session_timeout`, i.e. whenever it was set under an
earlier clock reading), and activity/update timestamps set to `now`.
Given an absent, unknown, inactive, or expired id it returns a freshly
created active session with the store's next fresh id and expiration
`now + session_timeout`; the fresh id differs from every stored session
id whenever the stored ids respect the fresh-id counter bound. -/
theorem c7_amended (st : Store) (now : Nat) :
    (∀ sid s e, (st.sessions.map (fun t => t.id)).Nodup → s ∈ st.sessions →
        s.id = sid → s.isActive = true → s.expiresAt = some e → now < e →
        (getOrCreateSession st now (some sid)).1 = refreshSession now s ∧
        (getOrCreateSession st now (some sid)).1.id = sid ∧
        (getOrCreateSession st now (some sid)).1.expiresAt = some (now + sessionTimeout) ∧
        (getOrCreateSession st now (some sid)).1.lastActivity = now ∧
        (getOrCreateSession st now (some sid)).1.updatedAt = now ∧
        (e < now + sessionTimeout →
          ∀ e2, (getOrCreateSession st now (some sid)).1.expiresAt = some e2 → e < e2)) ∧
    (∀ sid, (∀ s ∈ st.sessions, ¬ (s.id = sid ∧ s.isActive = true ∧
          ∃ e, s.expiresAt = some e ∧ now < e)) →
        getOrCreateSession st now (some sid) = createSession st now) ∧
    (getOrCreateSession st now none = createSession st now) ∧
    ((createSession st now).1.id = st.nextSessionId ∧
      (createSession st now).1.expiresAt = some (now + sessionTimeout) ∧
      (createSession st now).1.isActive = true ∧
      (createSession st now).1.createdAt = now ∧
      (createSession st now).2.sessions = st.sessions ++ [(createSession st now).1]) ∧
    (∀ s ∈ st.sessions, s.id < st.nextSessionId → s.id ≠ (createSession st now).1.id) := by
  have hit : ∀ sid s, st.sessions.find? (activeUnexpired now sid) = some s →
      (getOrCreateSession st now (some sid)).1 = refreshSession now s := by
    intro sid s hf
    simp only [getOrCreateSession, hf]
  have miss : ∀ sid, st.sessions.find? (activeUnexpired now sid) = none →
      getOrCreateSession st now (some sid) = createSession st now := by
    intro sid hf
    simp only [getOrCreateSession, hf]
  refine ⟨?_, ?_, rfl, ⟨rfl, rfl, rfl, rfl, rfl⟩, ?_⟩
  · intro sid s e hN hs hid hact hexp hlt
    have hf : st.sessions.find? (activeUnexpired now sid) = some s := by
      refine find?_eq_some_of_unique hs
        (activeUnexpired_eq_true.mpr ⟨hid, hact, e, hexp, hlt⟩) ?_
      intro t ht hpt
      exact List.inj_on_of_nodup_map hN ht hs
        (by rw [(activeUnexpired_eq_true.mp hpt).1, hid])
    rw [hit sid s hf]
    refine ⟨rfl, hid, rfl, rfl, rfl, ?_⟩
    intro hlt2 e2 he2
    simp only [refreshSession, Option.some.injEq] at he2
    omega
  · intro sid hno
    have hf : st.sessions.find? (activeUnexpired now sid) = none := by
      rw [List.find?_eq_none]
      intro t ht hp
      exact hno t ht (activeUnexpired_eq_true.mp hp)
    exact miss sid hf
  · intro s hs hlt
    exact Nat.ne_of_lt hlt

/-- C7 (amended, witness): a hit at call time 50 on a session expiring
at 60 comes back with the same id and expiration `50 + 86400`, and an
unknown id yields the freshly created session. -/
theorem c7_amended_witness :
    (getOrCreateSession (⟨[⟨1, 0, 0, some 60, true, 0, 0⟩], [], 2, 0⟩ : Store)
        50 (some 1)).1.id = 1 ∧
    (getOrCreateSession (⟨[⟨1, 0, 0, some 60, true, 0, 0⟩], [], 2, 0⟩ : Store)
        50 (some 1)).1.expiresAt = some (50 + sessionTimeout) ∧
    getOrCreateSession (⟨[⟨1, 0, 0, some 60, true, 0, 0⟩], [], 2, 0⟩ : Store)
        50 (some 7) =
      createSession (⟨[⟨1, 0, 0, some 60, true, 0, 0⟩], [], 2, 0⟩ : Store) 50 := by
  have h := c7_amended (⟨[⟨1, 0, 0, some 60, true, 0, 0⟩], [], 2, 0⟩ : Store) 50
  have hhit := h.1 1 ⟨1, 0, 0, some 60, true, 0, 0⟩ 60 (by decide) (by decide)
    rfl rfl rfl (by decide)
  refine ⟨hhit.2.1, hhit.2.2.1, h.2.1 7 ?_⟩
  intro s hs
  rcases List.mem_singleton.mp hs with rfl
  rintro ⟨h1, -, -⟩
  exact absurd h1 (by decide)

/-! ## Claims about ingestion keying (C9) -/

theorem kbLookup_upsertOne_self (kb : KB) (k : Str) (m : FAQMeta) :
    kbLookup (upsertOne kb k m) k = some m := by
  induction kb with
  | nil => simp [upsertOne, kbLookup, List.find?]
  | cons e es ih =>
    by_cases he : e.1 = k
    · simp [upsertOne, he, kbLookup, List.find?]
    · simp only [upsertOne, if_neg he]
      unfold kbLookup at ih ⊢
      rw [List.find?_cons_of_neg _ (by simpa using he)]
      exact ih

theorem mem_keys_upsertOne (kb : KB) (k : Str) (m : FAQMeta) :
    ∀ x ∈ (upsertOne kb k m).map (fun e => e.1), x = k ∨ x ∈ kb.map (fun e => e.1) := by
  induction kb with
  | nil => simp [upsertOne]
  | cons e es ih =>
    by_cases he : e.1 = k
    · simp only [upsertOne, if_pos he, List.map_cons, List.mem_cons]
      rintro x (rfl | hx)
      · exact Or.inl rfl
      · exact Or.inr (Or.inr hx)
    · simp only [upsertOne, if_neg he, List.map_cons, List.mem_cons]
      rintro x (rfl | hx)
      · exact Or.inr (Or.inl rfl)
      · rcases ih x hx with h | h
        · exact Or.inl h
        · exact Or.inr (Or.inr h)

theorem nodup_keys_upsertOne (kb : KB) (k : Str) (m : FAQMeta)
    (hN : (kb.map (fun e => e.1)).Nodup) :
    ((upsertOne kb k m).map (fun e => e.1)).Nodup := by
  induction kb with
  | nil => simp [upsertOne]
  | cons e es ih =>
    simp only [List.map_cons, List.nodup_cons] at hN
    by_cases he : e.1 = k
    · simp only [upsertOne, if_pos he, List.map_cons, List.nodup_cons]
      exact ⟨he ▸ hN.1, hN.2⟩
    · simp only [upsertOne, if_neg he, List.map_cons, List.nodup_cons]
      refine ⟨fun hx => ?_, ih hN.2⟩
      rcases mem_keys_upsertOne es k m e.1 hx with h | h
      · exact he h
      · exact hN.1 h

theorem filter_keys_eq_nil (kb : KB) (k : Str) (hk : k ∉ kb.map (fun e => e.1)) :
    kb.filter (fun e => decide (e.1 = k)) = [] := by
  rw [List.filter_eq_nil_iff]
  intro e he hp
  simp only [decide_eq_true_eq] at hp
  exact hk (List.mem_map.mpr ⟨e, he, hp⟩)

theorem count_upsertOne (kb : KB) (k : Str) (m : FAQMeta)
    (hN : (kb.map (fun e => e.1)).Nodup) :
    ((upsertOne kb k m).filter (fun e => decide (e.1 = k))).length = 1 := by
  induction kb with
  | nil => simp [upsertOne]
  | cons e es ih =>
    simp only [List.map_cons, List.nodup_cons] at hN
    by_cases he : e.1 = k
    · simp only [upsertOne, if_pos he, List.filter_cons, decide_eq_true_eq]
      rw [if_pos trivial, filter_keys_eq_nil es k (he ▸ hN.1)]
      rfl
    · simp only [upsertOne, if_neg he, List.filter_cons, decide_eq_true_eq]
      exact ih hN.2

/-- Reduction of `ingest_faq` on a non-empty batch. -/
theorem ingestFAQ_cons (kb : KB) (it : FAQItem) (its : List FAQItem) :
    ingestFAQ kb (it :: its) =
      .ok (upsertFAQs kb
          (((it :: its).map (fun i => uuid5Key i.question)).zip
            ((it :: its).map (fun i => (⟨i.question, i.answer⟩ : FAQMeta)))),
        (it :: its).length) := by
  simp [ingestFAQ]

/-- C9: the ingestion key is a deterministic function of the question
text alone; hence two items with character-identical questions — in the
same batch or across batches — are assigned the same key, and on a
knowledge base with unique keys the later upsert overwrites the
earlier: the base retains exactly one record under that key, holding
the later answer. -/
theorem c9_deterministic_key_overwrites (kb : KB)
    (hN : (kb.map (fun e => e.1)).Nodup) (q a1 a2 : Str) :
    (∀ q2, q = q2 → uuid5Key q = uuid5Key q2) ∧
    (∀ kb2, ingestFAQ kb [⟨q, a1⟩, ⟨q, a2⟩] = .ok (kb2, 2) →
        kbLookup kb2 (uuid5Key q) = some ⟨q, a2⟩ ∧
        (kb2.filter (fun e => decide (e.1 = uuid5Key q))).length = 1) ∧
    (∀ kb1 kb2, ingestFAQ kb [⟨q, a1⟩] = .ok (kb1, 1) →
        ingestFAQ kb1 [⟨q, a2⟩] = .ok (kb2, 1) →
        kbLookup kb2 (uuid5Key q) = some ⟨q, a2⟩ ∧
        (kb2.filter (fun e => decide (e.1 = uuid5Key q))).length = 1) := by
  refine ⟨fun q2 h => by rw [h], ?_, ?_⟩
  · intro kb2 hok
    rw [ingestFAQ_cons] at hok
    have h2 := Except.ok.inj hok
    have hkb2 : kb2 =
        upsertOne (upsertOne kb (uuid5Key q) ⟨q, a1⟩) (uuid5Key q) ⟨q, a2⟩ :=
      (congrArg Prod.fst h2).symm
    subst hkb2
    exact ⟨kbLookup_upsertOne_self _ _ _,
      count_upsertOne _ _ _ (nodup_keys_upsertOne _ _ _ hN)⟩
  · intro kb1 kb2 hok1 hok2
    rw [ingestFAQ_cons] at hok1 hok2
    have hkb1 : kb1 = upsertOne kb (uuid5Key q) ⟨q, a1⟩ :=
      (congrArg Prod.fst (Except.ok.inj hok1)).symm
    subst hkb1
    have hkb2 : kb2 =
        upsertOne (upsertOne kb (uuid5Key q) ⟨q, a1⟩) (uuid5Key q) ⟨q, a2⟩ :=
      (congrArg Prod.fst (Except.ok.inj hok2)).symm
    subst hkb2
    exact ⟨kbLookup_upsertOne_self _ _ _,
      count_upsertOne _ _ _ (nodup_keys_upsertOne _ _ _ hN)⟩

/-- C9 (witness): ingesting two items with the same question and
different answers into an empty base retains one record with the later
answer, both within one batch and across two batches. -/
theorem c9_witness :
    kbLookup (upsertOne (upsertOne [] (uuid5Key "q".data) ⟨"q".data, "a1".data⟩)
        (uuid5Key "q".data) ⟨"q".data, "a2".data⟩) (uuid5Key "q".data) =
      some ⟨"q".data, "a2".data⟩ ∧
    ((upsertOne (upsertOne [] (uuid5Key "q".data) ⟨"q".data, "a1".data⟩)
        (uuid5Key "q".data) ⟨"q".data, "a2".data⟩).filter
      (fun e => decide (e.1 = uuid5Key "q".data))).length = 1 :=
  (c9_deterministic_key_overwrites [] (by decide) "q".data "a1".data "a2".data).2.1
    (upsertOne (upsertOne [] (uuid5Key "q".data) ⟨"q".data, "a1".data⟩)
      (uuid5Key "q".data) ⟨"q".data, "a2".data⟩) rfl

/-! ## Claims about action suggestions (C10) -/

/-- C10: for every successful model output, the action-suggestion step
returns at most 5 strings, each strictly longer than 10 characters and
none beginning (case-insensitively) with any of the filler openers
`here` / `you can` / `please` / `thank`; when the suggestion-generation
call fails, the step returns the fixed fallback list of four generic
clarifying questions instead of propagating the error. -/
theorem c10_suggestions_filtered :
    (∀ txt : Str,
        (suggestNextActions (.ok txt)).length ≤ 5 ∧
        ∀ a ∈ suggestNextActions (.ok txt),
          10 < a.length ∧
            (fillerOpeners.any (fun p => List.isPrefixOf p (pyLower a))) = false) ∧
    suggestNextActions (.error ()) = fallbackSuggestions ∧
    fallbackSuggestions.length = 4 := by
  refine ⟨?_, rfl, rfl⟩
  intro txt
  constructor
  · exact List.length_take_le 5 _
  · intro a ha
    have hmem := List.mem_of_mem_take ha
    have hkeep := (List.mem_filter.mp hmem).2
    simp only [keepAction, Bool.and_eq_true, decide_eq_true_eq, Bool.not_eq_true',
      Bool.not_eq_true] at hkeep
    exact ⟨hkeep.1, hkeep.2⟩

/-- C10 (witness): a concrete model output whose surviving line is
returned, longer than 10 characters and free of filler openers. -/
theorem c10_witness :
    10 < ("Check the billing page today".data : Str).length ∧
    (fillerOpeners.any
        (fun p => List.isPrefixOf p (pyLower "Check the billing page today".data))) = false :=
  (c10_suggestions_filtered.1 "Here is one\nCheck the billing page today".data).2
    "Check the billing page today".data (by decide)
